import Mathlib

/-!
Verification of `beamprofiler/beamprofileranalysis.py` against its specification.

The Python code computes with IEEE floats and numpy arrays.  The embedding uses
exact arithmetic over a linear ordered field (instantiated at `ℚ` or `ℝ`) and
models a float value as `Option α`: `some x` is the finite value `x`, `none`
stands for a non-finite float (`nan` or `±inf`) or, equivalently, for the
value of a scalar operation that raises (`float` division by zero).  Comparisons
against `none` are false, matching IEEE comparisons against `nan`; a division
whose denominator is `0` yields `none`.  Frames (2-D numpy arrays) are a shape
together with a pixel function; slicing follows Python's clamping rules,
including the wrap-around of negative slice stops.
-/

set_option linter.unusedVariables false

namespace BeamProfiler

/-- Binary operation on modelled float values, propagating non-finiteness (`nan`). -/
def flMap2 {α : Type} (f : α → α → α) : Option α → Option α → Option α
  | some a, some b => some (f a b)
  | _, _ => none

/-- Modelled float addition. -/
def flAdd {α : Type} [Add α] : Option α → Option α → Option α := flMap2 (· + ·)

/-- Modelled float subtraction. -/
def flSub {α : Type} [Sub α] : Option α → Option α → Option α := flMap2 (· - ·)

/-- Modelled float multiplication. -/
def flMul {α : Type} [Mul α] : Option α → Option α → Option α := flMap2 (· * ·)

/-- Modelled float division: a zero denominator gives a non-finite result
(`inf`/`nan` in numpy, `ZeroDivisionError` for plain Python floats). -/
def flDiv {α : Type} [LinearOrderedField α] : Option α → Option α → Option α
  | some a, some b => if b = 0 then none else some (a / b)
  | _, _ => none

/-- Modelled float absolute value. -/
def flAbs {α : Type} [Lattice α] [AddGroup α] : Option α → Option α :=
  Option.map (fun x => |x|)

/-- Modelled float squaring. -/
def flSq {α : Type} [Monoid α] : Option α → Option α := Option.map (fun x => x ^ 2)

/-- Strict `>` on modelled floats: any comparison with `nan` is false. -/
def flGT {α : Type} [LinearOrder α] (a b : Option α) : Bool :=
  match a, b with
  | some x, some y => decide (y < x)
  | _, _ => false

/-- Equality test `==` on modelled floats: `nan == nan` is false. -/
def flEqb {α : Type} [LinearOrder α] (a b : Option α) : Bool :=
  match a, b with
  | some x, some y => decide (x = y)
  | _, _ => false

/-- Python's two-argument `min(a, b)`: returns `b` exactly when `b < a`, so
`min(nan, b) = nan` and `min(a, nan) = a`, as for float arguments in Python. -/
def pymin {α : Type} [LinearOrder α] (a : Option α) (b : α) : Option α :=
  match a with
  | none => none
  | some x => some (if b < x then b else x)

/-- Python's `int(x)` / `np.int(x)`: truncation toward zero. -/
def pyTrunc {α : Type} [LinearOrderedRing α] [FloorRing α] (x : α) : ℤ :=
  if x < 0 then -⌊-x⌋ else ⌊x⌋

/-- A 2-D numpy array: a shape `(rows, cols)` and a pixel map.  Values of `px`
outside the shape are irrelevant to every embedded computation. -/
structure Frame (α : Type) where
  rows : ℕ
  cols : ℕ
  px : ℕ → ℕ → α

/-- Requested region of interest `[x0, width, y0, height]`, each entry a float
(possibly `nan`, modelled as `none`), as passed to `get_roi`. -/
structure RoiSpec (α : Type) where
  x0 : Option α
  w : Option α
  y0 : Option α
  h : Option α

/-- Second stage of one axis of `get_roi` (`beamprofileranalysis.py:327-339`):
clip the width to the remaining extent if it overruns, replace a `nan` width by
the full axis extent, otherwise truncate it to an integer.  Returns the slice
bounds `(start, start + width)` in `ℤ`, before Python slice normalization. -/
def axisStage2 {α : Type} [LinearOrderedField α] [FloorRing α]
    (n : ℕ) (left : ℤ) (w : Option α) : ℤ × ℤ :=
  match w with
  | some wv =>
      if (left : α) + wv > (n : α) then (left, left + ((n : ℤ) - left))
      else (left, left + pyTrunc wv)
  | none => (left, left + (n : ℤ))

/-- One axis of `get_roi` (`beamprofileranalysis.py:304-325`): convert
centre/extent to an edge, clamp the edge to at most `n - 2`, pin a non-positive
edge to `0` shrinking the width by the overshoot, and map a `nan` edge to `0`. -/
def axisIdx {α : Type} [LinearOrderedField α] [FloorRing α]
    (n : ℕ) (c e : Option α) : ℤ × ℤ :=
  let left0 : Option α := flSub c (e.map (fun v => v / 2))
  match pymin left0 ((n : α) - 2) with
  | some x =>
      if x ≤ 0 then axisStage2 n 0 (flAdd e (some x))
      else axisStage2 n (pyTrunc x) e
  | none => axisStage2 n 0 e

/-- Python slice normalization `a[start:stop]` on an axis of length `n`, for a
non-negative integral `start` and integral `stop` (negative stops count from
the end).  Returns the normalized start index and the number of selected
indices. -/
def pySliceIdx (n : ℕ) (se : ℤ × ℤ) : ℕ × ℕ :=
  let s : ℤ := min se.1 (n : ℤ)
  let e : ℤ := if se.2 < 0 then max 0 ((n : ℤ) + se.2) else min se.2 (n : ℤ)
  (s.toNat, (e - s).toNat)

/-- Index part of `get_roi` (`beamprofileranalysis.py:298-341`): the column and
row windows `((colStart, colLen), (rowStart, rowLen))` selected from a frame of
the given shape. -/
def get_roiIdx {α : Type} [LinearOrderedField α] [FloorRing α]
    (rows cols : ℕ) (roi : RoiSpec α) : (ℕ × ℕ) × (ℕ × ℕ) :=
  (pySliceIdx cols (axisIdx cols roi.x0 roi.w),
   pySliceIdx rows (axisIdx rows roi.y0 roi.h))

/-- The function `get_roi`: it returns `data[bottom:bottom+height, left:left+width]`. -/
def get_roi {α : Type} [LinearOrderedField α] [FloorRing α]
    (f : Frame α) (roi : RoiSpec α) : Frame α :=
  let cIdx := pySliceIdx f.cols (axisIdx f.cols roi.x0 roi.w)
  let rIdx := pySliceIdx f.rows (axisIdx f.rows roi.y0 roi.h)
  ⟨rIdx.2, cIdx.2, fun i j => f.px (rIdx.1 + i) (cIdx.1 + j)⟩

/-- Entry `k` of `np.gradient` of the length-`n` axis grid `x`: one-sided
differences at the ends, central differences inside.  Only meaningful for
`n ≥ 2`; `np.gradient` raises on shorter arrays, which the caller models. -/
def gradAt {α : Type} [LinearOrderedField α] (x : ℕ → α) (n k : ℕ) : α :=
  if k = 0 then x 1 - x 0
  else if k = n - 1 then x (n - 1) - x (n - 2)
  else (x (k + 1) - x (k - 1)) / 2

/-- Total weighted intensity `A = Σ(data·dx·dy)` of `calculate_2D_moments`. -/
def totalWeightedIntensity {α : Type} [LinearOrderedField α]
    (f : Frame α) (sx sy : α) : α :=
  ∑ i ∈ Finset.range f.rows, ∑ j ∈ Finset.range f.cols,
    f.px i j * gradAt (fun k => sx * k) f.cols j * gradAt (fun k => sy * k) f.rows i

/-- The function `calculate_2D_moments` (`beamprofileranalysis.py:264-295`).
`np.gradient` raises when an axis has fewer than 2 entries, modelled by the
`Except.error` branch.  When `A = 0` every moment is a division of a finite
float by `0` (or involves the resulting `nan` in its weights), so every entry
of the returned array is non-finite; this is modelled by returning `none` in
every position.  When `A ≠ 0` all five moments are finite and exact. -/
def calculate_2D_moments {α : Type} [LinearOrderedField α]
    (f : Frame α) (sx sy : α) (calc2nd : Bool) : Except String (List (Option α)) :=
  if f.cols < 2 ∨ f.rows < 2 then
    .error "Shape of array too small to calculate a numerical gradient"
  else
    let xs : ℕ → α := fun j => sx * j
    let ys : ℕ → α := fun i => sy * i
    let dxg : ℕ → α := fun j => gradAt xs f.cols j
    let dyg : ℕ → α := fun i => gradAt ys f.rows i
    let wsum : (ℕ → ℕ → α) → α := fun g =>
      ∑ i ∈ Finset.range f.rows, ∑ j ∈ Finset.range f.cols,
        f.px i j * g i j * dxg j * dyg i
    let A := totalWeightedIntensity f sx sy
    if A = 0 then .ok (if calc2nd then [none, none, none, none, none] else [none, none])
    else
      let avgx := wsum (fun _ j => xs j) / A
      let avgy := wsum (fun i _ => ys i) / A
      if calc2nd then
        let sig2x := wsum (fun _ j => (xs j - avgx) ^ 2) / A
        let sig2y := wsum (fun i _ => (ys i - avgy) ^ 2) / A
        let sig2xy := wsum (fun i j => (xs j - avgx) * (ys i - avgy)) / A
        .ok [some avgx, some avgy, some sig2x, some sig2y, some sig2xy]
      else .ok [some avgx, some avgy]

/-- All entries of a frame, row-major, as `np.min`/`np.max` iterate them. -/
def frameEntries {α : Type} (f : Frame α) : List α :=
  (List.range f.rows).flatMap (fun i => (List.range f.cols).map (fun j => f.px i j))

/-- Value of `np.min` on a non-empty list (`0` is junk for the empty list, on
which numpy raises). -/
def npMin {α : Type} [LinearOrder α] [Zero α] : List α → α
  | [] => 0
  | x :: xs => xs.foldl min x

/-- Value of `np.max` on a non-empty list (`0` is junk for the empty list). -/
def npMax {α : Type} [LinearOrder α] [Zero α] : List α → α
  | [] => 0
  | x :: xs => xs.foldl max x

/-- The function `normalize` (`beamprofileranalysis.py:76-89`).  The boolean
records whether `warnings.warn` fired (the constant-input branch). -/
def normalize {α : Type} [LinearOrderedField α] (f : Frame α) (offset : α) :
    Bool × Frame α :=
  let dmin := npMin (frameEntries f)
  let dmax := npMax (frameEntries f)
  let scale := dmax - dmin
  if scale = 0 then (true, ⟨f.rows, f.cols, fun _ _ => 1 + offset⟩)
  else (false, ⟨f.rows, f.cols, fun i j => (f.px i j - dmin) / scale + offset⟩)

/-- Python's `str.split(sep)` for a one-character separator, over the
character list. -/
def pySplit (sep : Char) (s : List Char) : List (List Char) :=
  s.foldr (fun c acc =>
    if c = sep then [] :: acc
    else
      match acc with
      | [] => [[c]]
      | g :: gs => (c :: g) :: gs) [[]]

/-- Python's `str.strip()`: drop whitespace from both ends. -/
def pyStrip (s : List Char) : List Char :=
  ((s.dropWhile Char.isWhitespace).reverse.dropWhile Char.isWhitespace).reverse

/-- Unit string taken by `read_position` from line 2 of the header:
`header[1].split('=')[1].strip().lower()`; `none` models the `IndexError`
when the line has no `=`. -/
def read_position_unit (headerLine : String) : Option String :=
  ((pySplit '=' headerLine.toList).get? 1).map
    (fun s => String.mk ((pyStrip s).map Char.toLower))

/-- Scale factor chosen by `read_position` for a (lower-cased) unit string;
anything unrecognized defaults to millimetres. -/
def unit_scale (unit : String) : ℚ :=
  if unit = "m" then 1
  else if unit = "mm" then 1 / 1000
  else if unit = "um" then 1 / 1000000
  else if unit = "nm" then 1 / 1000000000
  else if unit = "pm" then 1 / 1000000000000
  else 1 / 1000

/-- Body transformation of `read_position`: `z = 2*s*z` applied to the parsed
column of numbers. -/
def read_position_z (unit : String) (zs : List ℚ) : List ℚ :=
  zs.map (fun z => 2 * unit_scale unit * z)

/-- Models CPython's `a is not b` for two separately computed `int` objects
(the counts `np.size(files)` and `np.size(z)`): CPython interns exactly the
integers in `[-5, 256]`, so two equal values in that range are the same object,
while two separately computed equal values outside it are distinct objects and
`is not` is true for them. -/
def pyIntIsNot (a b : ℤ) : Bool :=
  !(decide (a = b) && decide (-5 ≤ a) && decide (a ≤ 256))

/-- The module-level consistency check (`beamprofileranalysis.py:375-376`):
`if np.size(files) is not np.size(z): stop(...)`.  `true` means the batch
aborts. -/
def count_mismatch_aborts (nFiles nPos : ℕ) : Bool :=
  pyIntIsNot nFiles nPos

/-- Modelled float square root: negative arguments give `nan` (numpy's
`x**(1/2)` warns and yields `nan` there). -/
noncomputable def flSqrt : Option ℝ → Option ℝ
  | some x => if x < 0 then none else some (Real.sqrt x)
  | none => none

/-- Modelled float arctangent. -/
noncomputable def flAtan : Option ℝ → Option ℝ := Option.map Real.arctan

/-- Modelled `np.sign`. -/
def flSign {α : Type} [LinearOrderedRing α] : Option α → Option α :=
  Option.map (fun x => if 0 < x then 1 else if x < 0 then -1 else 0)

/-- Index returned by `np.argmin`: the first position holding the minimum. -/
def npArgmin (l : List ℚ) : ℕ := l.indexOf (npMin l)

/-- Index returned by `np.argmax`: the first position holding the maximum. -/
def npArgmax (l : List ℚ) : ℕ := l.indexOf (npMax l)

/-- Initial parameter guess `p0 = [ai, bi, ci]` of `fit_M2`
(`beamprofileranalysis.py:142-155`), computed from the measured diameters `dz`
and positions `z`:

* `ci = (arctan((dm - di)/(zm - zi)))^2`
* `bi = -2*zi*ci`
* `ai = di^2 + ci*zi^2`

with `(zi, di)` at `np.argmin(dz)` and `(zm, dm)` at `np.argmax(dz)`. -/
noncomputable def fitM2_p0 (dz z : List ℚ) : Option ℝ × Option ℝ × Option ℝ :=
  let di : ℚ := npMin dz
  let zi : ℚ := z.getD (npArgmin dz) 0
  let dm : ℚ := npMax dz
  let zm : ℚ := z.getD (npArgmax dz) 0
  let ci : Option ℝ :=
    flSq (flAtan (flDiv (some ((dm : ℝ) - (di : ℝ))) (some ((zm : ℝ) - (zi : ℝ)))))
  let bi : Option ℝ := flMul (some (-2 * (zi : ℝ))) ci
  let ai : Option ℝ := flAdd (some ((di : ℝ) ^ 2)) (flMul ci (some ((zi : ℝ) ^ 2)))
  (ai, bi, ci)

/-- Modelled from the spec: initial guess derived from the sample of minimum
diameter `(zi, di)` and the sample of maximum diameter `(zm, dm)` as
`c0 = (atan((dm-di)/(zm-zi)))^2`, `b0 = -2*zi*c0`, `a0 = di^2 + c0*zi^2`. -/
noncomputable def specInitialGuess (zi di zm dm : ℝ) : Option ℝ × Option ℝ × Option ℝ :=
  let c0 : Option ℝ := flSq (flAtan (flDiv (some (dm - di)) (some (zm - zi))))
  let b0 : Option ℝ := flMul (some (-2 * zi)) c0
  let a0 : Option ℝ := flAdd (some (di ^ 2)) (flMul c0 (some (zi ^ 2)))
  (a0, b0, c0)

/-- Nominal values `[z0, d0, M2, theta, zR]` computed by `fit_M2` from the
fitted coefficients `(a, b, c)` (`beamprofileranalysis.py:165-169`); the
nominal value of each `uncertainties` expression is the same expression over
the nominal floats.  There is no special casing of `c = 0` in the source. -/
noncomputable def fitM2_nominal (wl a b c : ℝ) : List (Option ℝ) :=
  let ac : Option ℝ := flSub (flMul (some 4) (flMul (some a) (some c))) (some (b ^ 2))
  let z0 : Option ℝ := flDiv (some (-b)) (some (2 * c))
  let d0 : Option ℝ :=
    flMul (flSqrt ac) (flDiv (some 1) (flMul (some 2) (flSqrt (some c))))
  let M2 : Option ℝ := flMul (flDiv (some Real.pi) (some (8 * wl))) (flSqrt ac)
  let theta : Option ℝ := flSqrt (some c)
  let zR : Option ℝ := flMul (flSqrt ac) (flDiv (some 1) (flMul (some 2) (some c)))
  [z0, d0, M2, theta, zR]

/-- Pixel size in metres (`PIXSIZE` constant of the script). -/
noncomputable def PIXSIZE : ℝ := 1745 / 1000000000

/-- The function `pix2len` on a scalar. -/
noncomputable def pix2len (input : ℝ) : ℝ := input * PIXSIZE

/-- Relative-change tolerance `error_limit = 0.0001` of `calculate_beamwidths`. -/
noncomputable def errLim : Option ℝ := some (1 / 10000)

/-- Loop state of `calculate_beamwidths`: the relative errors, the previous
diameters, the ROI to crop next (`roi_new`), the ROI used by the last executed
iteration (`roi`), the last moments, and the iteration counter `itN`. -/
structure BWState where
  errx : Option ℝ
  erry : Option ℝ
  d0x : Option ℝ
  d0y : Option ℝ
  roiNew : RoiSpec ℝ
  roiUsed : RoiSpec ℝ
  moments : List (Option ℝ)
  itN : ℕ

/-- State before the first iteration of the `calculate_beamwidths` loop
(`beamprofileranalysis.py:207-218`). -/
noncomputable def bwInit (f : Frame ℝ) : BWState :=
  { errx := some 1, erry := some 1,
    d0x := some (f.cols : ℝ), d0y := some (f.rows : ℝ),
    roiNew := ⟨some ((f.cols : ℝ) / 2), some (f.cols : ℝ),
               some ((f.rows : ℝ) / 2), some (f.rows : ℝ)⟩,
    roiUsed := ⟨some ((f.cols : ℝ) / 2), some (f.cols : ℝ),
                some ((f.rows : ℝ) / 2), some (f.rows : ℝ)⟩,
    moments := [], itN := 0 }

/-- One body execution of the `calculate_beamwidths` loop
(`beamprofileranalysis.py:220-237`): crop, compute moments (which may raise),
form D4σ diameters, relative changes, and the next ROI, and count the
iteration. -/
noncomputable def bwBody (full : Frame ℝ) (s : BWState) : Except String BWState :=
  let roi := s.roiNew
  let data := get_roi full roi
  match calculate_2D_moments data 1 1 true with
  | .error e => .error e
  | .ok ms =>
      let dx := flMul (some 4) (flSqrt (ms.getD 2 none))
      let dy := flMul (some 4) (flSqrt (ms.getD 3 none))
      let errx := flDiv (flAbs (flSub dx s.d0x)) s.d0x
      let erry := flDiv (flAbs (flSub dy s.d0y)) s.d0y
      let newRoi : RoiSpec ℝ :=
        ⟨flSub (flAdd (ms.getD 0 none) roi.x0) (roi.w.map (fun v => v / 2)),
         flMul (some 3) dx,
         flSub (flAdd (ms.getD 1 none) roi.y0) (roi.h.map (fun v => v / 2)),
         flMul (some 3) dy⟩
      .ok { errx := errx, erry := erry, d0x := dx, d0y := dy,
            roiNew := newRoi, roiUsed := roi, moments := ms, itN := s.itN + 1 }

/-- The `while` loop of `calculate_beamwidths` with explicit fuel.  `none`
means the fuel ran out with the loop still running; `some (.error e)` a raised
exception; `some (.ok (s, capped))` normal exit, where `capped` records whether
the `itN >= it_limit` break fired (and the script printed
`exceeded iteration in calculating moments`). -/
noncomputable def bwGo (full : Frame ℝ) : ℕ → BWState → Option (Except String (BWState × Bool))
  | 0, _ => none
  | fuel + 1, s =>
      if flGT s.errx errLim || flGT s.erry errLim then
        match bwBody full s with
        | .error e => some (.error e)
        | .ok s' => if 5 ≤ s'.itN then some (.ok (s', true)) else bwGo full fuel s'
      else some (.ok (s, false))

/-- Returned value of `calculate_beamwidths`: `beamwidths = [dx, dy, phi]`,
the last used `roi` and the physically scaled `moments` — and nothing else. -/
structure BWResult where
  beamwidths : List (Option ℝ)
  roi : RoiSpec ℝ
  moments : List (Option ℝ)

/-- Post-loop part of `calculate_beamwidths` (`beamprofileranalysis.py:242-261`):
scale the moments to physical units and decompose the 2×2 second-moment tensor
into ellipse diameters and tilt. -/
noncomputable def bwPost (s : BWState) : BWResult :=
  let p : ℝ := pix2len 1
  let ms := s.moments
  let scaled : List (Option ℝ) :=
    [flMul (some p) (ms.getD 0 none), flMul (some p) (ms.getD 1 none),
     flMul (some (p ^ 2)) (ms.getD 2 none), flMul (some (p ^ 2)) (ms.getD 3 none),
     flMul (some (p ^ 2)) (ms.getD 4 none)]
  let s2x := scaled.getD 2 none
  let s2y := scaled.getD 3 none
  let s2xy := scaled.getD 4 none
  let g := flSign (flSub s2x s2y)
  let disc := flSqrt (flAdd (flSq (flSub s2x s2y)) (flMul (some 4) (flSq s2xy)))
  let dx := flMul (some (2 * Real.sqrt 2)) (flSqrt (flAdd (flAdd s2x s2y) (flMul g disc)))
  let dy := flMul (some (2 * Real.sqrt 2)) (flSqrt (flSub (flAdd s2x s2y) (flMul g disc)))
  let phi :=
    if flEqb s2x s2y then flMul (some (Real.pi / 4)) (flSign s2xy)
    else flMul (some (1 / 2)) (flAtan (flDiv (flMul (some 2) s2xy) (flSub s2x s2y)))
  ⟨[dx, dy, phi], s.roiUsed, scaled⟩

/-- The function `calculate_beamwidths`.  The boolean records whether the
iteration-cap diagnostic was printed; it is delivered beside the returned
triple because the Python return value itself carries no convergence
information.  The `fuel exhausted` branch is unreachable: the loop always
stops within 5 iterations. -/
noncomputable def calculate_beamwidths (f : Frame ℝ) : Except String (BWResult × Bool) :=
  match bwGo f 5 (bwInit f) with
  | none => .error "fuel exhausted"
  | some (.error e) => .error e
  | some (.ok (s, capped)) => .ok (bwPost s, capped)

/-!  Helper lemmas about truncation and Python slicing. -/

theorem pyTrunc_of_nonneg {α : Type} [LinearOrderedRing α] [FloorRing α]
    {x : α} (h : 0 ≤ x) : pyTrunc x = ⌊x⌋ := by
  unfold pyTrunc
  rw [if_neg (not_lt.mpr h)]

theorem pySliceIdx_spec (n : ℕ) (a b : ℤ) (h0 : 0 ≤ a) (hab : a ≤ b) (hbn : b ≤ (n : ℤ)) :
    pySliceIdx n (a, b) = (a.toNat, (b - a).toNat) := by
  simp only [pySliceIdx]
  rw [min_eq_left (le_trans hab hbn), if_neg (not_lt.mpr (le_trans h0 hab)),
    min_eq_left hbn]

theorem pySliceIdx_within (n : ℕ) (se : ℤ × ℤ) (h : 0 ≤ se.1) :
    (pySliceIdx n se).1 + (pySliceIdx n se).2 ≤ n := by
  obtain ⟨a, b⟩ := se
  simp only [pySliceIdx]
  rcases le_total a (n : ℤ) with h1 | h1
  · rw [min_eq_left h1]
    by_cases hb : b < 0
    · rw [if_pos hb]
      omega
    · rw [if_neg hb]
      rcases le_total b (n : ℤ) with h2 | h2
      · rw [min_eq_left h2]
        omega
      · rw [min_eq_right h2]
        omega
  · rw [min_eq_right h1]
    by_cases hb : b < 0
    · rw [if_pos hb]
      omega
    · rw [if_neg hb]
      rcases le_total b (n : ℤ) with h2 | h2
      · rw [min_eq_left h2]
        omega
      · rw [min_eq_right h2]
        omega

theorem axisStage2_fst {α : Type} [LinearOrderedField α] [FloorRing α]
    (n : ℕ) (left : ℤ) (w : Option α) : (axisStage2 n left w).1 = left := by
  cases w with
  | none => rfl
  | some wv =>
      simp only [axisStage2]
      by_cases h : (left : α) + wv > (n : α)
      · rw [if_pos h]
      · rw [if_neg h]

theorem axisIdx_fst_nonneg {α : Type} [LinearOrderedField α] [FloorRing α]
    (n : ℕ) (c e : Option α) : 0 ≤ (axisIdx n c e).1 := by
  cases hp : pymin (flSub c (e.map (fun v => v / 2))) ((n : α) - 2) with
  | none =>
      simp only [axisIdx, hp, axisStage2_fst]
      exact le_refl 0
  | some x =>
      by_cases hx : x ≤ 0
      · simp only [axisIdx, hp, if_pos hx, axisStage2_fst]
        exact le_refl 0
      · simp only [axisIdx, hp, if_neg hx, axisStage2_fst]
        rw [pyTrunc_of_nonneg (le_of_lt (lt_of_not_le hx))]
        exact Int.floor_nonneg.mpr (le_of_lt (lt_of_not_le hx))

theorem axisIdx_fst_le {α : Type} [LinearOrderedField α] [FloorRing α]
    (n : ℕ) (c e : Option α) (hn : 2 ≤ n) : (axisIdx n c e).1 ≤ (n : ℤ) - 2 := by
  cases hc : flSub c (e.map (fun v => v / 2)) with
  | none =>
      simp only [axisIdx, hc, pymin, axisStage2_fst]
      omega
  | some x0 =>
      simp only [axisIdx, hc, pymin]
      have hxle : (if ((n : α) - 2) < x0 then ((n : α) - 2) else x0) ≤ (n : α) - 2 := by
        split
        · exact le_refl _
        · exact le_of_not_lt (by assumption)
      set x := if ((n : α) - 2) < x0 then ((n : α) - 2) else x0 with hxdef
      by_cases hx : x ≤ 0
      · rw [if_pos hx, axisStage2_fst]
        omega
      · rw [if_neg hx, axisStage2_fst, pyTrunc_of_nonneg (le_of_lt (lt_of_not_le hx))]
        have : (⌊x⌋ : ℤ) ≤ ⌊(n : α) - 2⌋ := Int.floor_le_floor hxle
        have hfl : ⌊(n : α) - 2⌋ = (n : ℤ) - 2 := by
          rw [show ((n : α) - 2) = (((n : ℤ) - 2 : ℤ) : α) by push_cast; ring]
          exact Int.floor_intCast _
        omega

theorem flMap2_none_right {α : Type} (f : α → α → α) (a : Option α) :
    flMap2 f a none = none := by
  cases a <;> rfl

theorem flMap2_none_left {α : Type} (f : α → α → α) (b : Option α) :
    flMap2 f none b = none := by
  cases b <;> rfl

/-- Requirement on one requested axis (centre `c`, extent `e`) under which the
clipped slice of an axis with at least 2 pixels is non-empty: a `nan` extent,
or an extent of at least one pixel whose right/top edge `c + e/2` reaches at
least coordinate 1 (when the centre is a number). -/
def goodAxisReq {α : Type} [LinearOrderedField α] (c e : Option α) : Prop :=
  match e with
  | none => True
  | some w => 1 ≤ w ∧ (match c with | none => True | some x => 1 ≤ x + w / 2)

theorem axis_len_pos {α : Type} [LinearOrderedField α] [FloorRing α]
    (n : ℕ) (c e : Option α) (hn : 2 ≤ n) (hreq : goodAxisReq c e) :
    1 ≤ (pySliceIdx n (axisIdx n c e)).2 := by
  have hn2 : (2 : α) ≤ (n : α) := by exact_mod_cast hn
  cases e with
  | none =>
      have hsub : flSub c (Option.map (fun v => v / 2) (none : Option α)) = none := by
        cases c <;> rfl
      simp only [axisIdx, hsub, pymin, axisStage2]
      rw [pySliceIdx_spec n 0 (0 + (n : ℤ)) (le_refl 0) (by omega) (by omega)]
      omega
  | some w =>
      obtain ⟨hw, hcx⟩ := hreq
      have hwfl : (1 : ℤ) ≤ ⌊w⌋ := Int.le_floor.mpr (by exact_mod_cast hw)
      cases c with
      | none =>
          have hsub : flSub (none : Option α) (Option.map (fun v => v / 2) (some w)) = none := by
            exact flMap2_none_left _ _
          simp only [axisIdx, hsub, pymin, axisStage2, flAdd, flMap2]
          by_cases hbig : ((0 : ℤ) : α) + w > (n : α)
          · rw [if_pos hbig,
              pySliceIdx_spec n 0 (0 + ((n : ℤ) - 0)) (le_refl 0) (by omega) (by omega)]
            omega
          · rw [if_neg hbig, pyTrunc_of_nonneg (by linarith)]
            have hfln : ⌊w⌋ ≤ (n : ℤ) := by
              have : w ≤ (n : α) := by push_cast at hbig; linarith
              have := Int.floor_le_floor this
              rwa [Int.floor_natCast] at this
            rw [pySliceIdx_spec n 0 (0 + ⌊w⌋) (le_refl 0) (by omega) (by omega)]
            omega
      | some x =>
          have hedge : (1 : α) ≤ x + w / 2 := hcx
          have hsub : flSub (some x) (Option.map (fun v => v / 2) (some w)) =
              some (x - w / 2) := rfl
          simp only [axisIdx, hsub, pymin, flAdd, flMap2]
          set m : α := if (n : α) - 2 < x - w / 2 then (n : α) - 2 else x - w / 2 with hm
          have hmle : m ≤ (n : α) - 2 := by
            rw [hm]
            split
            · exact le_refl _
            · exact le_of_not_lt (by assumption)
          by_cases hm0 : m ≤ 0
          · rw [if_pos hm0]
            have hwm : (1 : α) ≤ w + m := by
              rw [hm]
              rw [hm] at hm0
              by_cases hbr : (n : α) - 2 < x - w / 2
              · rw [if_pos hbr]
                rw [if_pos hbr] at hm0
                linarith
              · rw [if_neg hbr]
                linarith
            simp only [axisStage2]
            by_cases hbig : ((0 : ℤ) : α) + (w + m) > (n : α)
            · rw [if_pos hbig,
                pySliceIdx_spec n 0 (0 + ((n : ℤ) - 0)) (le_refl 0) (by omega) (by omega)]
              omega
            · rw [if_neg hbig, pyTrunc_of_nonneg (by linarith)]
              have hfl1 : (1 : ℤ) ≤ ⌊w + m⌋ := Int.le_floor.mpr (by exact_mod_cast hwm)
              have hfln : ⌊w + m⌋ ≤ (n : ℤ) := by
                have : w + m ≤ (n : α) := by push_cast at hbig; linarith
                have := Int.floor_le_floor this
                rwa [Int.floor_natCast] at this
              rw [pySliceIdx_spec n 0 (0 + ⌊w + m⌋) (le_refl 0) (by omega) (by omega)]
              omega
          · rw [if_neg hm0]
            have hmpos : (0 : α) ≤ m := le_of_lt (lt_of_not_le hm0)
            rw [pyTrunc_of_nonneg hmpos]
            have hL0 : (0 : ℤ) ≤ ⌊m⌋ := Int.floor_nonneg.mpr hmpos
            have hLn : ⌊m⌋ ≤ (n : ℤ) - 2 := by
              have h1 : m ≤ ((((n : ℤ) - 2 : ℤ)) : α) := by push_cast; linarith
              have := Int.floor_le_floor h1
              rwa [Int.floor_intCast] at this
            simp only [axisStage2]
            by_cases hbig : ((⌊m⌋ : ℤ) : α) + w > (n : α)
            · rw [if_pos hbig,
                pySliceIdx_spec n ⌊m⌋ (⌊m⌋ + ((n : ℤ) - ⌊m⌋)) hL0 (by omega) (by omega)]
              omega
            · rw [if_neg hbig, pyTrunc_of_nonneg (by linarith)]
              have hstop : ⌊m⌋ + ⌊w⌋ ≤ (n : ℤ) := by
                have h1 : ((⌊m⌋ + ⌊w⌋ : ℤ) : α) ≤ (n : α) := by
                  push_cast
                  have hfw : ((⌊w⌋ : ℤ) : α) ≤ w := Int.floor_le w
                  push_cast at hbig hfw
                  linarith
                exact_mod_cast h1
              rw [pySliceIdx_spec n ⌊m⌋ (⌊m⌋ + ⌊w⌋) hL0 (by omega) (by omega)]
              omega

theorem axis_start_le {α : Type} [LinearOrderedField α] [FloorRing α]
    (n : ℕ) (c e : Option α) (hn : 2 ≤ n) :
    (pySliceIdx n (axisIdx n c e)).1 ≤ n - 2 := by
  have h0 := axisIdx_fst_nonneg n c e
  have h2 := axisIdx_fst_le n c e hn
  simp only [pySliceIdx]
  rw [min_eq_left (by omega)]
  omega

theorem axis_start_clamped {α : Type} [LinearOrderedField α] [FloorRing α]
    (n : ℕ) (c e : Option α) (hn : 2 ≤ n) (q : α)
    (hq : flSub c (e.map (fun v => v / 2)) = some q) (hq2 : (n : α) - 2 ≤ q) :
    (pySliceIdx n (axisIdx n c e)).1 = n - 2 := by
  have hm : (if (n : α) - 2 < q then (n : α) - 2 else q) = (n : α) - 2 := by
    split
    · rfl
    · exact le_antisymm (le_of_not_lt (by assumption)) hq2
  simp only [axisIdx, hq, pymin, hm]
  have hn2 : (2 : α) ≤ (n : α) := by exact_mod_cast hn
  by_cases h2 : (n : α) - 2 ≤ 0
  · rw [if_pos h2]
    have hneq : n = 2 := by
      have : (n : α) ≤ 2 := by linarith
      have : n ≤ 2 := by exact_mod_cast this
      omega
    simp only [pySliceIdx]
    rw [axisStage2_fst, min_eq_left (by omega)]
    omega
  · rw [if_neg h2]
    rw [pyTrunc_of_nonneg (by linarith)]
    have hfl : ⌊(n : α) - 2⌋ = (n : ℤ) - 2 := by
      rw [show ((n : α) - 2) = (((n : ℤ) - 2 : ℤ) : α) by push_cast; ring]
      exact Int.floor_intCast _
    simp only [pySliceIdx]
    rw [axisStage2_fst, hfl, min_eq_left (by omega)]
    omega

/-- C2 (amended): every sub-array `get_roi` selects lies within the original
frame's index bounds; and it has at least 1 row and at least 1 column provided
the frame has at least 2 rows and 2 columns and each requested axis has either
a `nan` extent or an extent of at least 1 whose far edge `centre + extent/2`
is at least 1.  (Unconditional non-emptiness, as the claim states it, is
false: a requested width of 0 yields an empty slice, see the
counterexample.) -/
theorem get_roi_within_bounds_and_nonempty {α : Type} [LinearOrderedField α] [FloorRing α]
    (rows cols : ℕ) (roi : RoiSpec α) :
    ((get_roiIdx rows cols roi).1.1 + (get_roiIdx rows cols roi).1.2 ≤ cols ∧
     (get_roiIdx rows cols roi).2.1 + (get_roiIdx rows cols roi).2.2 ≤ rows) ∧
    (2 ≤ rows → 2 ≤ cols → goodAxisReq roi.x0 roi.w → goodAxisReq roi.y0 roi.h →
      1 ≤ (get_roiIdx rows cols roi).1.2 ∧ 1 ≤ (get_roiIdx rows cols roi).2.2) := by
  simp only [get_roiIdx]
  exact ⟨⟨pySliceIdx_within _ _ (axisIdx_fst_nonneg _ _ _),
          pySliceIdx_within _ _ (axisIdx_fst_nonneg _ _ _)⟩,
    fun hr hc hx hy => ⟨axis_len_pos _ _ _ hc hx, axis_len_pos _ _ _ hr hy⟩⟩

/-- C2 witness: a well-formed request on a 4×4 frame keeps at least one row
and one column. -/
theorem get_roi_within_bounds_and_nonempty_witness :
    1 ≤ (get_roiIdx (α := ℚ) 4 4 ⟨some 2, some 2, some 2, some 2⟩).1.2 ∧
    1 ≤ (get_roiIdx (α := ℚ) 4 4 ⟨some 2, some 2, some 2, some 2⟩).2.2 :=
  (get_roi_within_bounds_and_nonempty 4 4 ⟨some 2, some 2, some 2, some 2⟩).2
    (by norm_num) (by norm_num) ⟨by norm_num, by norm_num⟩ ⟨by norm_num, by norm_num⟩

/-- C2 counterexample: on a 3×3 frame the request `[x0=5, width=0, y0=1.5,
height=3]` returns a sub-array with 0 columns — an empty slice, contradicting
the claimed guarantee of at least 1 row and 1 column for every request. -/
theorem get_roi_gives_empty_slice :
    (get_roi (⟨3, 3, fun _ _ => (1 : ℚ)⟩ : Frame ℚ)
      ⟨some 5, some 0, some (3 / 2), some 3⟩).cols = 0 ∧
    (get_roi (⟨3, 3, fun _ _ => (1 : ℚ)⟩ : Frame ℚ)
      ⟨some 5, some 0, some (3 / 2), some 3⟩).rows = 3 := by
  norm_num [get_roi, axisIdx, axisStage2, pymin, pyTrunc, pySliceIdx,
    flSub, flMap2, flAdd]
  omega

/-- C9: with at least 2 pixels on an axis, the start index of the sub-array
returned by `get_roi` never exceeds `extent - 2`; and whenever the computed
left (bottom) edge `centre - extent/2` is a number at least `cols - 2`
(`rows - 2`) — in particular for a window requested entirely beyond the right
(top) edge — the start is pulled back to exactly `cols - 2` (`rows - 2`),
inside the frame, rather than the requested edge being preserved. -/
theorem get_roi_pulls_far_windows_back {α : Type} [LinearOrderedField α] [FloorRing α]
    (rows cols : ℕ) (roi : RoiSpec α) (hr : 2 ≤ rows) (hc : 2 ≤ cols) :
    ((get_roiIdx rows cols roi).1.1 ≤ cols - 2 ∧
     (get_roiIdx rows cols roi).2.1 ≤ rows - 2) ∧
    (∀ q : α, flSub roi.x0 (roi.w.map (fun v => v / 2)) = some q → (cols : α) - 2 ≤ q →
      (get_roiIdx rows cols roi).1.1 = cols - 2) ∧
    (∀ q : α, flSub roi.y0 (roi.h.map (fun v => v / 2)) = some q → (rows : α) - 2 ≤ q →
      (get_roiIdx rows cols roi).2.1 = rows - 2) := by
  simp only [get_roiIdx]
  exact ⟨⟨axis_start_le _ _ _ hc, axis_start_le _ _ _ hr⟩,
    fun q hq hq2 => axis_start_clamped _ _ _ hc q hq hq2,
    fun q hq hq2 => axis_start_clamped _ _ _ hr q hq hq2⟩

/-- C9 witness: a window requested far beyond the top-right corner of a 4×4
frame starts at index 2 = 4 - 2 on both axes. -/
theorem get_roi_pulls_far_windows_back_witness :
    (get_roiIdx (α := ℚ) 4 4 ⟨some 100, some 2, some 50, some 2⟩).1.1 = 2 ∧
    (get_roiIdx (α := ℚ) 4 4 ⟨some 100, some 2, some 50, some 2⟩).2.1 = 2 :=
  ⟨(get_roi_pulls_far_windows_back 4 4 ⟨some 100, some 2, some 50, some 2⟩
      (by norm_num) (by norm_num)).2.1 99 (by norm_num [flSub, flMap2]) (by norm_num),
   (get_roi_pulls_far_windows_back 4 4 ⟨some 100, some 2, some 50, some 2⟩
      (by norm_num) (by norm_num)).2.2 49 (by norm_num [flSub, flMap2]) (by norm_num)⟩

/-- C1 (amended): on a frame with at least 2 rows and 2 columns,
`calculate_2D_moments` never raises; it returns a moment set whose entries are
all non-finite (`nan`) exactly when the total weighted intensity
`A = Σ(data·dx·dy)` is zero — the division by `A` is performed silently, no
numeric-degeneracy error is signalled. -/
theorem moments_silent_on_zero_intensity {α : Type} [LinearOrderedField α]
    (f : Frame α) (sx sy : α) (hr : 2 ≤ f.rows) (hc : 2 ≤ f.cols) :
    (∃ l, calculate_2D_moments f sx sy true = Except.ok l) ∧
    (calculate_2D_moments f sx sy true = Except.ok [none, none, none, none, none] ↔
      totalWeightedIntensity f sx sy = 0) := by
  simp only [calculate_2D_moments]
  rw [if_neg (by omega)]
  by_cases hA : totalWeightedIntensity f sx sy = 0
  · simp [hA]
  · simp [hA]

/-- C1 witness: the all-zero 2×2 frame has `A = 0` and gets the all-`nan`
moment set back, with no error raised. -/
theorem moments_silent_on_zero_intensity_witness :
    (∃ l, calculate_2D_moments (⟨2, 2, fun _ _ => (0 : ℚ)⟩ : Frame ℚ) 1 1 true =
      Except.ok l) ∧
    (calculate_2D_moments (⟨2, 2, fun _ _ => (0 : ℚ)⟩ : Frame ℚ) 1 1 true =
      Except.ok [none, none, none, none, none] ↔
      totalWeightedIntensity (⟨2, 2, fun _ _ => (0 : ℚ)⟩ : Frame ℚ) 1 1 = 0) :=
  moments_silent_on_zero_intensity ⟨2, 2, fun _ _ => (0 : ℚ)⟩ 1 1 (by norm_num) (by norm_num)

/-- C1 counterexample: on the all-zero 2×2 frame (total weighted intensity
`A = 0`) `calculate_2D_moments` does not fail: it returns `ok` with every
moment non-finite (`nan`), refuting both that a numeric-degeneracy error is
raised and that a returned moment set never contains `inf`/`nan`. -/
theorem moments_zero_frame_returns_nan :
    calculate_2D_moments (⟨2, 2, fun _ _ => (0 : ℚ)⟩ : Frame ℚ) 1 1 true =
      Except.ok [none, none, none, none, none] := by
  have hA : totalWeightedIntensity (⟨2, 2, fun _ _ => (0 : ℚ)⟩ : Frame ℚ) 1 1 = 0 := by
    simp [totalWeightedIntensity]
  simp only [calculate_2D_moments]
  norm_num [hA]

/-- C7: `read_position` extracts the unit from line 2 of the header, converts
`m`/`mm`/`um`/`nm`/`pm` to metres with any unrecognized unit defaulting to
`mm`, and doubles every body value: for unit `um` and body `[1, 2, 3]` it
returns `[2e-6, 4e-6, 6e-6]` metres. -/
theorem read_position_unit_conversion :
    read_position_unit "unit = um" = some "um" ∧
    read_position_z "um" [1, 2, 3] = [2 / 1000000, 4 / 1000000, 6 / 1000000] ∧
    unit_scale "m" = 1 ∧ unit_scale "mm" = 1 / 1000 ∧ unit_scale "um" = 1 / 1000000 ∧
    unit_scale "nm" = 1 / 1000000000 ∧ unit_scale "pm" = 1 / 1000000000000 ∧
    (∀ u : String, u ≠ "m" → u ≠ "mm" → u ≠ "um" → u ≠ "nm" → u ≠ "pm" →
      unit_scale u = 1 / 1000) ∧
    (∀ zs : List ℚ, read_position_z "m" zs = zs.map (fun z => 2 * z)) := by
  have hm : unit_scale "m" = 1 := by simp [unit_scale]
  have hum : unit_scale "um" = 1 / 1000000 := by simp [unit_scale]
  refine ⟨by decide, ?_, hm, by simp [unit_scale], hum, by simp [unit_scale],
    by simp [unit_scale], ?_, ?_⟩
  · simp [read_position_z, hum]
    norm_num
  · intro u h1 h2 h3 h4 h5
    simp only [unit_scale, if_neg h1, if_neg h2, if_neg h3, if_neg h4, if_neg h5]
  · intro zs
    simp [read_position_z, hm]

/-- C7 witness: an unrecognized unit string falls back to the `mm` scale. -/
theorem read_position_unit_conversion_witness :
    unit_scale "furlong" = 1 / 1000 :=
  read_position_unit_conversion.2.2.2.2.2.2.2.1 "furlong"
    (by decide) (by decide) (by decide) (by decide) (by decide)

/-- C8: the count check `np.size(files) is not np.size(z)` compares object
identity, not value: with CPython's small-integer interning, two equal counts
of 257 abort the batch, while equal counts in the interned range pass and
differing counts abort.  The claim that the batch proceeds for every pair of
equal counts is false. -/
theorem count_check_compares_identity :
    count_mismatch_aborts 257 257 = true ∧
    count_mismatch_aborts 200 200 = false ∧
    count_mismatch_aborts 3 4 = true := by
  decide

/-- C10: on any frame whose maximum entry equals its minimum entry (with at
least one pixel), `normalize` warns and returns the all-ones frame of the same
shape plus the offset; it never raises and no entry is `nan`. -/
theorem normalize_constant_frame {α : Type} [LinearOrderedField α]
    (f : Frame α) (offset : α) (hr : 1 ≤ f.rows) (hc : 1 ≤ f.cols)
    (hconst : npMax (frameEntries f) = npMin (frameEntries f)) :
    (normalize f offset).1 = true ∧
    (normalize f offset).2.rows = f.rows ∧
    (normalize f offset).2.cols = f.cols ∧
    ∀ i j : ℕ, (normalize f offset).2.px i j = 1 + offset := by
  have h0 : npMax (frameEntries f) - npMin (frameEntries f) = 0 :=
    sub_eq_zero_of_eq hconst
  simp [normalize, h0]

/-- C10 witness: a constant 2×2 frame normalizes to the all-ones frame plus
the offset, with the warning flag set. -/
theorem normalize_constant_frame_witness :
    (normalize (⟨2, 2, fun _ _ => (5 : ℚ)⟩ : Frame ℚ) 3).1 = true ∧
    (normalize (⟨2, 2, fun _ _ => (5 : ℚ)⟩ : Frame ℚ) 3).2.rows = 2 ∧
    (normalize (⟨2, 2, fun _ _ => (5 : ℚ)⟩ : Frame ℚ) 3).2.cols = 2 ∧
    ∀ i j : ℕ, (normalize (⟨2, 2, fun _ _ => (5 : ℚ)⟩ : Frame ℚ) 3).2.px i j = 1 + 3 :=
  normalize_constant_frame ⟨2, 2, fun _ _ => (5 : ℚ)⟩ 3 (by norm_num) (by norm_num)
    (by norm_num [npMax, npMin, frameEntries, List.range_succ])

/-!  Facts about `npMin`/`npMax` and the argmin/argmax indices. -/

theorem foldl_min_le_init {α : Type} [LinearOrder α] :
    ∀ (xs : List α) (a : α), xs.foldl min a ≤ a
  | [], a => le_refl a
  | x :: xs, a => le_trans (foldl_min_le_init xs (min a x)) (min_le_left a x)

theorem foldl_min_le_mem {α : Type} [LinearOrder α] :
    ∀ (xs : List α) (a y : α), y ∈ xs → xs.foldl min a ≤ y
  | x :: xs, a, y, hy => by
      rcases List.mem_cons.mp hy with h | h
      · subst h
        exact le_trans (foldl_min_le_init xs (min a y)) (min_le_right a y)
      · exact foldl_min_le_mem xs (min a x) y h

theorem foldl_min_mem {α : Type} [LinearOrder α] :
    ∀ (xs : List α) (a : α), xs.foldl min a = a ∨ xs.foldl min a ∈ xs
  | [], a => Or.inl rfl
  | x :: xs, a => by
      rcases foldl_min_mem xs (min a x) with h | h
      · rcases min_choice a x with hm | hm
        · exact Or.inl (h.trans hm)
        · exact Or.inr (List.mem_cons.mpr (Or.inl (h.trans hm)))
      · exact Or.inr (List.mem_cons.mpr (Or.inr h))

theorem foldl_max_init_le {α : Type} [LinearOrder α] :
    ∀ (xs : List α) (a : α), a ≤ xs.foldl max a
  | [], a => le_refl a
  | x :: xs, a => le_trans (le_max_left a x) (foldl_max_init_le xs (max a x))

theorem foldl_max_mem_le {α : Type} [LinearOrder α] :
    ∀ (xs : List α) (a y : α), y ∈ xs → y ≤ xs.foldl max a
  | x :: xs, a, y, hy => by
      rcases List.mem_cons.mp hy with h | h
      · subst h
        exact le_trans (le_max_right a y) (foldl_max_init_le xs (max a y))
      · exact foldl_max_mem_le xs (max a x) y h

theorem foldl_max_mem {α : Type} [LinearOrder α] :
    ∀ (xs : List α) (a : α), xs.foldl max a = a ∨ xs.foldl max a ∈ xs
  | [], a => Or.inl rfl
  | x :: xs, a => by
      rcases foldl_max_mem xs (max a x) with h | h
      · rcases max_choice a x with hm | hm
        · exact Or.inl (h.trans hm)
        · exact Or.inr (List.mem_cons.mpr (Or.inl (h.trans hm)))
      · exact Or.inr (List.mem_cons.mpr (Or.inr h))

theorem npMin_mem {α : Type} [LinearOrder α] [Zero α] (l : List α) (h : l ≠ []) :
    npMin l ∈ l := by
  cases l with
  | nil => exact absurd rfl h
  | cons x xs =>
      rcases foldl_min_mem xs x with h1 | h1
      · rw [npMin, h1]
        exact List.mem_cons_self x xs
      · exact List.mem_cons.mpr (Or.inr h1)

theorem npMin_le {α : Type} [LinearOrder α] [Zero α] (l : List α) (y : α) (hy : y ∈ l) :
    npMin l ≤ y := by
  cases l with
  | nil => exact absurd hy (List.not_mem_nil y)
  | cons x xs =>
      rcases List.mem_cons.mp hy with h | h
      · rw [npMin, h]
        exact foldl_min_le_init xs x
      · exact foldl_min_le_mem xs x y h

theorem npMax_mem {α : Type} [LinearOrder α] [Zero α] (l : List α) (h : l ≠ []) :
    npMax l ∈ l := by
  cases l with
  | nil => exact absurd rfl h
  | cons x xs =>
      rcases foldl_max_mem xs x with h1 | h1
      · rw [npMax, h1]
        exact List.mem_cons_self x xs
      · exact List.mem_cons.mpr (Or.inr h1)

theorem npMax_ge {α : Type} [LinearOrder α] [Zero α] (l : List α) (y : α) (hy : y ∈ l) :
    y ≤ npMax l := by
  cases l with
  | nil => exact absurd hy (List.not_mem_nil y)
  | cons x xs =>
      rcases List.mem_cons.mp hy with h | h
      · rw [npMax, h]
        exact foldl_max_init_le xs x
      · exact foldl_max_mem_le xs x y h

theorem getD_npArgmin (l : List ℚ) (h : l ≠ []) : l.getD (npArgmin l) 0 = npMin l := by
  have hmem : npMin l ∈ l := npMin_mem l h
  have hlt : l.indexOf (npMin l) < l.length := List.indexOf_lt_length.mpr hmem
  rw [npArgmin, List.getD_eq_get l 0 hlt, List.indexOf_get hlt]

theorem getD_npArgmax (l : List ℚ) (h : l ≠ []) : l.getD (npArgmax l) 0 = npMax l := by
  have hmem : npMax l ∈ l := npMax_mem l h
  have hlt : l.indexOf (npMax l) < l.length := List.indexOf_lt_length.mpr hmem
  rw [npArgmax, List.getD_eq_get l 0 hlt, List.indexOf_get hlt]

/-- C6: for every non-empty diameter list, the initial guess of `fit_M2` is
exactly the two-point bootstrap of the specification, taken at a sample
`(zi, di)` whose diameter is minimal and a sample `(zm, dm)` whose diameter is
maximal: `c0 = (atan((dm-di)/(zm-zi)))^2`, `b0 = -2*zi*c0`,
`a0 = di^2 + c0*zi^2` — not arbitrary defaults. -/
theorem fitM2_initial_guess_from_extremes (dz z : List ℚ)
    (hne : dz ≠ []) (hlen : z.length = dz.length) :
    ∃ i j : ℕ, i < dz.length ∧ j < dz.length ∧
      (∀ y ∈ dz, dz.getD i 0 ≤ y) ∧ (∀ y ∈ dz, y ≤ dz.getD j 0) ∧
      fitM2_p0 dz z =
        specInitialGuess ((z.getD i 0 : ℚ) : ℝ) ((dz.getD i 0 : ℚ) : ℝ)
          ((z.getD j 0 : ℚ) : ℝ) ((dz.getD j 0 : ℚ) : ℝ) := by
  refine ⟨npArgmin dz, npArgmax dz,
    List.indexOf_lt_length.mpr (npMin_mem dz hne),
    List.indexOf_lt_length.mpr (npMax_mem dz hne), ?_, ?_, ?_⟩
  · intro y hy
    rw [getD_npArgmin dz hne]
    exact npMin_le dz y hy
  · intro y hy
    rw [getD_npArgmax dz hne]
    exact npMax_ge dz y hy
  · rw [getD_npArgmin dz hne, getD_npArgmax dz hne]
    rfl

/-- C6 witness: on `dz = [2, 1]`, `z = [7, 9]` the guess is built from the
extreme samples. -/
theorem fitM2_initial_guess_from_extremes_witness :
    ∃ i j : ℕ, i < ([2, 1] : List ℚ).length ∧ j < ([2, 1] : List ℚ).length ∧
      (∀ y ∈ ([2, 1] : List ℚ), ([2, 1] : List ℚ).getD i 0 ≤ y) ∧
      (∀ y ∈ ([2, 1] : List ℚ), y ≤ ([2, 1] : List ℚ).getD j 0) ∧
      fitM2_p0 [2, 1] [7, 9] =
        specInitialGuess ((([7, 9] : List ℚ).getD i 0 : ℚ) : ℝ)
          ((([2, 1] : List ℚ).getD i 0 : ℚ) : ℝ)
          ((([7, 9] : List ℚ).getD j 0 : ℚ) : ℝ)
          ((([2, 1] : List ℚ).getD j 0 : ℚ) : ℝ) :=
  fitM2_initial_guess_from_extremes [2, 1] [7, 9] (by decide) (by decide)

/-- C3 (amended): `fit_M2` performs no collimated-limit detection.  For
`c > 0`, non-negative discriminant and nonzero wavelength all five nominal
outputs exist and are the closed-form values below; at `c = 0` the `z0`, `d0`
and `zR` formulas divide by zero instead of producing a designated report (see
the counterexample). -/
theorem fitM2_defined_for_positive_c (wl a b c : ℝ)
    (hc : 0 < c) (hd : 0 ≤ 4 * (a * c) - b ^ 2) (hwl : wl ≠ 0) :
    fitM2_nominal wl a b c =
      [some (-b / (2 * c)),
       some (Real.sqrt (4 * (a * c) - b ^ 2) * (1 / (2 * Real.sqrt c))),
       some (Real.pi / (8 * wl) * Real.sqrt (4 * (a * c) - b ^ 2)),
       some (Real.sqrt c),
       some (Real.sqrt (4 * (a * c) - b ^ 2) * (1 / (2 * c)))] := by
  have h2c : (2 : ℝ) * c ≠ 0 := by positivity
  have hsc : ¬ c < 0 := not_lt.mpr hc.le
  have h2sq : (2 : ℝ) * Real.sqrt c ≠ 0 := by
    have := Real.sqrt_pos.mpr hc
    positivity
  have h8 : (8 : ℝ) * wl ≠ 0 := mul_ne_zero (by norm_num) hwl
  have hac : ¬ (4 * (a * c) - b ^ 2 < 0) := not_lt.mpr hd
  simp [fitM2_nominal, flSub, flMul, flDiv, flSqrt, flMap2, h2c, hsc, h2sq, h8, hac]

/-- C3 witness: at `(wl, a, b, c) = (1, 1, 0, 1)` all five nominal outputs are
finite. -/
theorem fitM2_defined_for_positive_c_witness :
    fitM2_nominal 1 1 0 1 =
      [some (-0 / (2 * 1)),
       some (Real.sqrt (4 * (1 * 1) - 0 ^ 2) * (1 / (2 * Real.sqrt 1))),
       some (Real.pi / (8 * 1) * Real.sqrt (4 * (1 * 1) - 0 ^ 2)),
       some (Real.sqrt 1),
       some (Real.sqrt (4 * (1 * 1) - 0 ^ 2) * (1 / (2 * 1)))] :=
  fitM2_defined_for_positive_c 1 1 0 1 (by norm_num) (by norm_num) (by norm_num)

/-- C3 counterexample: at `c = 0` (the collimated-beam limit) with `a = b = 1`
and the script's default wavelength, the nominal `z0`, `d0`, `M2` and `zR` are
non-finite/undefined — `z0` and `zR` divide by `2c = 0` — and only `theta` is
a number; `fit_M2` reports no distinct numeric edge case. -/
theorem fitM2_collimated_divides_by_zero :
    fitM2_nominal (103 / 100000000) 1 1 0 = [none, none, none, some 0, none] := by
  norm_num [fitM2_nominal, flSub, flMul, flDiv, flSqrt, flMap2]

/-!  Termination of the `calculate_beamwidths` iteration. -/

end BeamProfiler
